import Mathlib

set_option maxHeartbeats 1000000
set_option maxRecDepth 4000

/-!
Verification of the OpenSL ES object and interface runtime of
`system_media/opensles/libopensles`.  The data model is taken from
`sles_allinclusive.h`; `IAudioEncoderCapabilities.c` is embedded directly.
Functions that are declared in the header but whose bodies are not part of
the excerpt (`checkInterfaces`, `construct`, the object lifecycle state
machine and the dynamic interface management operations) are modelled from
the specification, as stated in their doc comments.
-/

namespace SystemMedia

/-- Result codes of the OpenSL ES 1.0.1 API (`OpenSLES.h`), as used by
`libopensles`. -/
def SL_RESULT_SUCCESS : Nat := 0

/-- Result code `SL_RESULT_PRECONDITIONS_VIOLATED`, the spec's
`PreconditionViolation`. -/
def SL_RESULT_PRECONDITIONS_VIOLATED : Nat := 1

/-- Result code `SL_RESULT_PARAMETER_INVALID`, the spec's
`InvalidParameter`. -/
def SL_RESULT_PARAMETER_INVALID : Nat := 2

/-- Result code `SL_RESULT_MEMORY_FAILURE`. -/
def SL_RESULT_MEMORY_FAILURE : Nat := 3

/-- Result code `SL_RESULT_RESOURCE_ERROR`, the spec's
`ResourceExhausted`. -/
def SL_RESULT_RESOURCE_ERROR : Nat := 4

/-- Result code `SL_RESULT_FEATURE_UNSUPPORTED`, the spec's
`FeatureUnsupported`. -/
def SL_RESULT_FEATURE_UNSUPPORTED : Nat := 12

/-- Relation of an interface to a class: `INTERFACE_IMPLICIT` ..
`INTERFACE_UNAVAILABLE`, `sles_allinclusive.h` lines 65-69. -/
inductive Relation where
  | implicit
  | explicit
  | optional
  | dynamic
  | unavailable
  deriving DecidableEq

/-- Per-slot interface state byte: `INTERFACE_UNINITIALIZED` ..
`INTERFACE_RESUMING_1A`, `sles_allinclusive.h` lines 83-94. -/
inductive InterfaceState where
  | Uninitialized
  | Exposed
  | Adding1
  | Adding2
  | Added
  | Removing
  | Suspending
  | Suspended
  | Resuming1
  | Resuming2
  | Adding1A
  | Resuming1A
  deriving DecidableEq

/-- Whole-object state: the `SL_OBJECT_STATE_*` values of the API together
with the internal states of `sles_allinclusive.h` lines 990-996 and the
terminal `Destroyed` state of the spec. -/
inductive ObjectState where
  | Unrealized
  | Realizing1
  | Realizing2
  | Realized
  | Suspending
  | Suspended
  | Resuming1
  | Resuming2
  | Realizing1A
  | Resuming1A
  | Destroyed
  deriving DecidableEq

/-! ## IAudioEncoderCapabilities.c -/

/-- Result of one call to `IAudioEncoderCapabilities_GetAudioEncoders`
(`IAudioEncoderCapabilities.c` lines 21-35).  C out-pointers are modelled
by `Option`: `pNumOut` is the value stored at `*pNumEncoders` when the
call returns (`none` when the pointer is `NULL`), and `idsWritten` is the
list of ids `memcpy`ed into `pEncoderIds`. -/
structure GetAudioEncodersResult where
  res : Nat
  pNumOut : Option Nat
  idsWritten : List Nat
  deriving DecidableEq

/-- Shallow embedding of `IAudioEncoderCapabilities_GetAudioEncoders`
(`IAudioEncoderCapabilities.c` lines 21-35).  `maxEncoders` stands for the
constant `MAX_ENCODERS` and `encoderIDs` for the table `Encoder_IDs`, both
defined in `devices.h` outside the excerpt and kept abstract as
parameters.  `pEncoderIdsNull` records whether the out pointer
`pEncoderIds` is `NULL`. -/
def IAudioEncoderCapabilities_GetAudioEncoders (maxEncoders : Nat)
    (encoderIDs : List Nat) (pNumEncoders : Option Nat)
    (pEncoderIdsNull : Bool) : GetAudioEncodersResult :=
  match pNumEncoders with
  | none => ⟨SL_RESULT_PARAMETER_INVALID, none, []⟩
  | some numIn =>
    if pEncoderIdsNull then
      ⟨SL_RESULT_SUCCESS, some maxEncoders, []⟩
    else
      let numEncoders := if maxEncoders ≤ numIn then maxEncoders else numIn
      ⟨SL_RESULT_SUCCESS, some numEncoders, encoderIDs.take numEncoders⟩

/-- Vtable `struct SLAudioEncoderCapabilitiesItf_`: the two methods of the
audio encoder capabilities interface.  Its second method delegates to
`GetCodecCapabilities`, which is declared outside the excerpt; the
descriptor out-parameter is abstracted to a `Nat` code behind an
`Option` (`none` = `NULL` pointer). -/
structure SLAudioEncoderCapabilitiesItf_ where
  mGetAudioEncoders : Option Nat → Bool → GetAudioEncodersResult
  mGetAudioEncoderCapabilities : Nat → Option Nat → Option Nat → Nat

/-- Embedding of `IAudioEncoderCapabilities_GetAudioEncoderCapabilities`
(`IAudioEncoderCapabilities.c` lines 37-43): it forwards to
`GetCodecCapabilities` applied to the `EncoderDescriptors` table; both are
outside the excerpt and folded into the abstract parameter
`getCodecCapabilities`. -/
def IAudioEncoderCapabilities_GetAudioEncoderCapabilities
    (getCodecCapabilities : Nat → Option Nat → Option Nat → Nat)
    (encoderId : Nat) (pIndex : Option Nat) (pDescriptor : Option Nat) :
    Nat :=
  getCodecCapabilities encoderId pIndex pDescriptor

/-- The shared static vtable `IAudioEncoderCapabilities_Itf`
(`IAudioEncoderCapabilities.c` lines 45-48). -/
def IAudioEncoderCapabilities_Itf (maxEncoders : Nat)
    (encoderIDs : List Nat)
    (getCodecCapabilities : Nat → Option Nat → Option Nat → Nat) :
    SLAudioEncoderCapabilitiesItf_ where
  mGetAudioEncoders :=
    IAudioEncoderCapabilities_GetAudioEncoders maxEncoders encoderIDs
  mGetAudioEncoderCapabilities :=
    IAudioEncoderCapabilities_GetAudioEncoderCapabilities getCodecCapabilities

/-- The `IAudioEncoderCapabilities` interface section
(`sles_allinclusive.h` lines 347-350): the vtable pointer `mItf` (`none`
while unset) and the `IObject` back pointer `mThis`, modelled as an
abstract address. -/
structure IAudioEncoderCapabilities where
  mItf : Option SLAudioEncoderCapabilitiesItf_
  mThis : Nat

/-- Embedding of `IAudioEncoderCapabilities_init`
(`IAudioEncoderCapabilities.c` lines 50-54): stores the address of the
shared vtable in `mItf`. -/
def IAudioEncoderCapabilities_init (maxEncoders : Nat)
    (encoderIDs : List Nat)
    (getCodecCapabilities : Nat → Option Nat → Option Nat → Nat)
    (self : IAudioEncoderCapabilities) : IAudioEncoderCapabilities :=
  { self with
    mItf := some (IAudioEncoderCapabilities_Itf maxEncoders encoderIDs
      getCodecCapabilities) }

/-! ## Engine instance table and construct -/

/-- `MAX_INSTANCE`, `sles_allinclusive.h` line 437: capacity of the
per-engine instance table `mInstances` / width of `mInstanceMask`. -/
def MAX_INSTANCE : Nat := 32

/-- The `iid_vtable` array of a class (`sles_allinclusive.h` lines
98-102 and 106-118): for each slot, the interface identifier `mMPH` and
its relation `mInterface` to the class.  The storage offset `mOffset` is
represented by the slot's position in the list. -/
abbrev ClassInterfaces := List (Nat × Relation)

/-- Per-instance view of one interface slot: the relation recorded in the
class `iid_vtable`, the state byte from `mInterfaceStates`, and whether
the slot's init hook has run (`false` = the slot memory is still
zeroed). -/
structure Slot where
  mRelation : Relation
  mState : InterfaceState
  mInited : Bool
  deriving DecidableEq

/-- Model of the object header `IObject` (`sles_allinclusive.h` lines
193-211).  `mSlots` merges the class relations with the per-slot state
bytes `mInterfaceStates`.  `mSlotIndex` records which bit of the owning
engine's `mInstanceMask` the instance occupies (in C, the position of the
object pointer within `mInstances`).  `mPassedRealizing2` is a history
flag recording that the object has completed the
`SL_OBJECT_STATE_REALIZING_2` phase of a realize. -/
structure IObject where
  mEngine : Nat
  mInstanceID : Nat
  mSlotIndex : Nat
  mState : ObjectState
  mPassedRealizing2 : Bool
  mSlots : List Slot
  deriving DecidableEq

/-- Instance bookkeeping of `IEngine` (`sles_allinclusive.h` lines
427-441): `mInstanceCount` live instances and `mInstanceMask` with one
bit per active object.  `mId` stands for the engine's own identity
(`mThis` in C) and is what constructed objects store in their `mEngine`
back reference; `mNextInstanceId` is the monotone source of instance ids
and `mAssignedIds` the history of ids already handed out. -/
structure IEngine where
  mId : Nat
  mInstanceCount : Nat
  mInstanceMask : Nat
  mNextInstanceId : Nat
  mAssignedIds : List Nat
  deriving DecidableEq

/-- A freshly created engine: empty instance table. -/
def engInit (mId : Nat) : IEngine :=
  ⟨mId, 0, 0, 0, []⟩

/-- Least clear bit of an instance mask, the free-slot search the engine
performs with `ctz` (`sles_allinclusive.h` line 999) on the complement of
`mInstanceMask`.  Bits `0..32` are searched; for any mask below `2 ^ 32`
the result is a clear bit. -/
def lowestClearBit (m : Nat) : Nat :=
  (((List.range 33).find? fun j => ! m.testBit j).getD 33)

/-- Modelled from the spec: per-slot initialisation performed by
`construct` — a slot whose bit is set in `exposedMask` becomes `Exposed`
with its init hook run, any other slot stays `Uninitialized` with its
memory left zeroed.  `i` is the index of the first slot of `cls`. -/
def initSlots : ClassInterfaces → Nat → Nat → List Slot
  | [], _, _ => []
  | (_, rel) :: rest, exposedMask, i =>
    (if exposedMask.testBit i then Slot.mk rel InterfaceState.Exposed true
     else Slot.mk rel InterfaceState.Uninitialized false) ::
      initSlots rest exposedMask (i + 1)

/-- Modelled from the spec: `construct` (declared at `sles_allinclusive.h`
lines 958-959; its body, in `sles.c`, is not part of the excerpt).  It
fails with `SL_RESULT_RESOURCE_ERROR` (the spec's `ResourceExhausted`)
when the engine already holds `MAX_INSTANCE` live instances; otherwise it
returns a fresh object in state `Unrealized` carrying a monotonically
increasing instance id and the engine back reference, with per-slot
states determined by `exposedMask`, and registers the object in the
engine's instance mask at the lowest free bit. -/
def construct (cls : ClassInterfaces) (exposedMask : Nat) (e : IEngine) :
    Except Nat (IObject × IEngine) :=
  if MAX_INSTANCE ≤ e.mInstanceCount then
    Except.error SL_RESULT_RESOURCE_ERROR
  else
    let b := lowestClearBit e.mInstanceMask
    let obj : IObject :=
      { mEngine := e.mId
        mInstanceID := e.mNextInstanceId
        mSlotIndex := b
        mState := ObjectState.Unrealized
        mPassedRealizing2 := false
        mSlots := initSlots cls exposedMask 0 }
    Except.ok (obj,
      { e with
        mInstanceCount := e.mInstanceCount + 1
        mInstanceMask := e.mInstanceMask ||| 2 ^ b
        mNextInstanceId := e.mNextInstanceId + 1
        mAssignedIds := e.mNextInstanceId :: e.mAssignedIds })

/-- Modelled from the spec: the engine-side effect of `Destroy` — after
teardown, the object is removed from the engine's instance table and its
`mInstanceMask` bit is cleared. -/
def IEngine_Remove (slotIndex : Nat) (e : IEngine) : IEngine :=
  if e.mInstanceMask.testBit slotIndex then
    { e with
      mInstanceCount := e.mInstanceCount - 1
      mInstanceMask := e.mInstanceMask ^^^ 2 ^ slotIndex }
  else e

/-- Engine-table effect of destroying `obj`: its slot is reclaimed. -/
def IObject_Destroy_engine (obj : IObject) (e : IEngine) : IEngine :=
  IEngine_Remove obj.mSlotIndex e

/-- Operations that touch the engine's instance table. -/
inductive EngOp where
  | construct (cls : ClassInterfaces) (exposedMask : Nat)
  | destroy (slotIndex : Nat)
  deriving DecidableEq

/-- Engine-table transition for one operation; a failed `construct`
leaves the engine unchanged. -/
def engStep (e : IEngine) (op : EngOp) : IEngine :=
  match op with
  | EngOp.construct cls exposedMask =>
    match construct cls exposedMask e with
    | Except.ok p => p.2
    | Except.error _ => e
  | EngOp.destroy slotIndex => IEngine_Remove slotIndex e

/-- Engine states reachable from a fresh engine by constructs and
destroys. -/
def ReachableEng (e : IEngine) : Prop :=
  ∃ mId ops, e = List.foldl engStep (engInit mId) ops

/-- Bookkeeping invariant of the engine instance table: at most
`MAX_INSTANCE` live instances, and every id already assigned is below the
monotone counter. -/
def EngInv (e : IEngine) : Prop :=
  e.mInstanceCount ≤ MAX_INSTANCE ∧
    ∀ id ∈ e.mAssignedIds, id < e.mNextInstanceId

theorem engInv_init (mId : Nat) : EngInv (engInit mId) := by
  constructor
  · simp [engInit, MAX_INSTANCE]
  · intro id h
    simp [engInit] at h

theorem engInv_step (e : IEngine) (op : EngOp) (h : EngInv e) :
    EngInv (engStep e op) := by
  obtain ⟨hcnt, hids⟩ := h
  cases op with
  | construct cls exposedMask =>
    by_cases h32 : MAX_INSTANCE ≤ e.mInstanceCount
    · simp only [engStep, construct, if_pos h32]
      exact ⟨hcnt, hids⟩
    · simp only [engStep, construct, if_neg h32]
      constructor
      · simp only [MAX_INSTANCE] at *
        omega
      · intro id hid
        simp only [List.mem_cons] at hid
        rcases hid with rfl | hid
        · exact Nat.lt_succ_self _
        · exact Nat.lt_trans (hids id hid) (Nat.lt_succ_self _)
  | destroy slotIndex =>
    simp only [engStep, IEngine_Remove]
    split
    · exact ⟨Nat.le_trans (Nat.sub_le _ _) hcnt, hids⟩
    · exact ⟨hcnt, hids⟩

theorem engInv_foldl (ops : List EngOp) (e : IEngine) (h : EngInv e) :
    EngInv (List.foldl engStep e ops) := by
  induction ops generalizing e with
  | nil => exact h
  | cons op rest ih => exact ih (engStep e op) (engInv_step e op h)

theorem reachableEng_engInv (e : IEngine) (h : ReachableEng e) : EngInv e := by
  obtain ⟨mId, ops, rfl⟩ := h
  exact engInv_foldl ops (engInit mId) (engInv_init mId)

theorem testBit_lowestClearBit (m : Nat) (hm : m < 2 ^ 32) :
    m.testBit (lowestClearBit m) = false := by
  unfold lowestClearBit
  cases hfind : (List.range 33).find? (fun j => ! m.testBit j) with
  | none =>
    exfalso
    have h32 : (32 : Nat) ∈ List.range 33 := by decide
    have hb := List.find?_eq_none.mp hfind 32 h32
    have hbit : m.testBit 32 = true := by
      cases h : m.testBit 32 with
      | false => exact absurd (by simp [h]) hb
      | true => rfl
    have := Nat.testBit_implies_ge hbit
    omega
  | some j =>
    have := List.find?_some hfind
    simpa using this

theorem initSlots_get? (cls : ClassInterfaces) (exposedMask : Nat) :
    ∀ k i, (initSlots cls exposedMask k).get? i =
      (cls.get? i).map (fun p =>
        if exposedMask.testBit (k + i) then
          Slot.mk p.2 InterfaceState.Exposed true
        else Slot.mk p.2 InterfaceState.Uninitialized false) := by
  induction cls with
  | nil => intro k i; simp [initSlots]
  | cons hd tl ih =>
    intro k i
    cases i with
    | zero => simp [initSlots]
    | succ n =>
      simp only [initSlots, List.get?_cons_succ]
      rw [ih (k + 1) n]
      have : k + 1 + n = k + (n + 1) := by omega
      rw [this]

/-- C2: in every reachable engine state the number of live instances is at
most `MAX_INSTANCE = 32`; an instance-mask bit can only be cleared by the
`destroy` of the instance occupying exactly that slot; and a `construct`
issued while 32 instances are live fails with `SL_RESULT_RESOURCE_ERROR`
(the spec's `ResourceExhausted`). -/
theorem engine_instance_table_bounded :
    (∀ e, ReachableEng e → e.mInstanceCount ≤ MAX_INSTANCE) ∧
    (∀ e op j, e.mInstanceMask.testBit j = true →
      (engStep e op).mInstanceMask.testBit j = false →
      op = EngOp.destroy j) ∧
    (∀ e cls exposedMask, e.mInstanceCount = MAX_INSTANCE →
      construct cls exposedMask e =
        Except.error SL_RESULT_RESOURCE_ERROR) := by
  refine ⟨fun e h => (reachableEng_engInv e h).1, ?_, ?_⟩
  · intro e op j hset hclear
    cases op with
    | construct cls exposedMask =>
      exfalso
      by_cases h32 : MAX_INSTANCE ≤ e.mInstanceCount
      · simp only [engStep, construct, if_pos h32] at hclear
        simp [hset] at hclear
      · simp only [engStep, construct, if_neg h32] at hclear
        rw [Nat.testBit_or, hset] at hclear
        simp at hclear
    | destroy k =>
      simp only [engStep, IEngine_Remove] at hclear
      by_cases hk : e.mInstanceMask.testBit k
      · rw [if_pos hk] at hclear
        simp only at hclear
        rw [Nat.testBit_xor, hset] at hclear
        by_cases hjk : k = j
        · exact hjk ▸ rfl
        · rw [Nat.testBit_two_pow_of_ne hjk] at hclear
          simp at hclear
      · rw [if_neg hk] at hclear
        rw [hset] at hclear
        simp at hclear
  · intro e cls exposedMask hfull
    simp [construct, hfull]

/-- C6: a successful `construct` returns an object whose state is
`Unrealized`, whose instance id is strictly greater than every id the
engine assigned before, whose engine back reference is the owning
engine's identity, and whose slots are `Exposed` with their init hook run
exactly where `exposedMask` has a bit set, and otherwise `Uninitialized`
with the slot memory left zeroed. -/
theorem construct_initializes (cls : ClassInterfaces) (exposedMask : Nat)
    (e : IEngine) (obj : IObject) (e' : IEngine)
    (hre : ReachableEng e)
    (h : construct cls exposedMask e = Except.ok (obj, e')) :
    obj.mState = ObjectState.Unrealized ∧
    obj.mEngine = e.mId ∧
    (∀ id ∈ e.mAssignedIds, id < obj.mInstanceID) ∧
    (∀ i p, cls.get? i = some p →
      obj.mSlots.get? i =
        some (if exposedMask.testBit i then
                Slot.mk p.2 InterfaceState.Exposed true
              else Slot.mk p.2 InterfaceState.Uninitialized false)) := by
  by_cases h32 : MAX_INSTANCE ≤ e.mInstanceCount
  · simp [construct, if_pos h32] at h
  · simp only [construct, if_neg h32, if_false] at h
    obtain ⟨h1, h2⟩ := Prod.mk.inj (Except.ok.inj h)
    subst h1
    subst h2
    refine ⟨rfl, rfl, ?_, ?_⟩
    · intro id hid
      exact (reachableEng_engInv e hre).2 id hid
    · intro i p hp
      simp only
      rw [initSlots_get? cls exposedMask 0 i, hp]
      simp

/-- C7: `construct` immediately followed by `Destroy` of the returned
object (no realize in between) restores the engine's instance mask and
live-instance count to their values before the `construct`. -/
theorem construct_destroy_roundtrip (cls : ClassInterfaces)
    (exposedMask : Nat) (e : IEngine) (obj : IObject) (e' : IEngine)
    (hmask : e.mInstanceMask < 2 ^ 32)
    (h : construct cls exposedMask e = Except.ok (obj, e')) :
    (IObject_Destroy_engine obj e').mInstanceMask = e.mInstanceMask ∧
    (IObject_Destroy_engine obj e').mInstanceCount = e.mInstanceCount := by
  by_cases h32 : MAX_INSTANCE ≤ e.mInstanceCount
  · simp [construct, if_pos h32] at h
  · simp only [construct, if_neg h32, if_false] at h
    obtain ⟨h1, h2⟩ := Prod.mk.inj (Except.ok.inj h)
    subst h1
    subst h2
    have hfree : e.mInstanceMask.testBit (lowestClearBit e.mInstanceMask)
        = false := testBit_lowestClearBit e.mInstanceMask hmask
    simp only [IObject_Destroy_engine, IEngine_Remove]
    rw [if_pos (by
      rw [Nat.testBit_or, Nat.testBit_two_pow_self]
      simp)]
    refine ⟨?_, by simp⟩
    simp only
    apply Nat.eq_of_testBit_eq
    intro j
    rw [Nat.testBit_xor, Nat.testBit_or]
    by_cases hj : lowestClearBit e.mInstanceMask = j
    · subst hj
      rw [Nat.testBit_two_pow_self, hfree]
      rfl
    · rw [Nat.testBit_two_pow_of_ne hj]
      simp

/-! ## Lifecycle state machine and interface toggle protocol -/

/-- Modelled from the spec: synchronous `AddInterface` of the dynamic
interface management (its body is not part of the excerpt).  Add is legal
only for a `dynamic`-relation slot of a realized object whose slot is
still `Uninitialized`; it then runs the slot's init hook and moves the
slot to `Added` (through the elided `INTERFACE_ADDING_2` phase).  Any
other attempt fails with `SL_RESULT_PRECONDITIONS_VIOLATED` and leaves
the object untouched. -/
def IDynamicInterfaceManagement_AddInterface (obj : IObject) (i : Nat) :
    Nat × IObject :=
  match obj.mSlots.get? i with
  | none => (SL_RESULT_PARAMETER_INVALID, obj)
  | some s =>
    if s.mRelation = Relation.dynamic then
      if obj.mState = ObjectState.Realized then
        if s.mState = InterfaceState.Uninitialized then
          (SL_RESULT_SUCCESS,
            { obj with mSlots := obj.mSlots.set i (Slot.mk s.mRelation InterfaceState.Added true) })
        else (SL_RESULT_PRECONDITIONS_VIOLATED, obj)
      else (SL_RESULT_PRECONDITIONS_VIOLATED, obj)
    else (SL_RESULT_PRECONDITIONS_VIOLATED, obj)

/-- Modelled from the spec: synchronous `RemoveInterface`.  Remove is
legal only for a `dynamic`-relation slot of a realized object whose slot
is `Added`; it then runs the deinit hook and returns the slot to
`Uninitialized` with its memory re-zeroed (through the elided
`INTERFACE_REMOVING` phase).  Any other attempt fails with
`SL_RESULT_PRECONDITIONS_VIOLATED` and leaves the object untouched. -/
def IDynamicInterfaceManagement_RemoveInterface (obj : IObject) (i : Nat) :
    Nat × IObject :=
  match obj.mSlots.get? i with
  | none => (SL_RESULT_PARAMETER_INVALID, obj)
  | some s =>
    if s.mRelation = Relation.dynamic then
      if obj.mState = ObjectState.Realized then
        if s.mState = InterfaceState.Added then
          (SL_RESULT_SUCCESS,
            { obj with mSlots := obj.mSlots.set i (Slot.mk s.mRelation InterfaceState.Uninitialized false) })
        else (SL_RESULT_PRECONDITIONS_VIOLATED, obj)
      else (SL_RESULT_PRECONDITIONS_VIOLATED, obj)
    else (SL_RESULT_PRECONDITIONS_VIOLATED, obj)

/-- Modelled from the spec: replace slot `i` by `s'` when the current
slot satisfies the guard `p` and the object is realized; used by the
asynchronous interface toggles. -/
def ifcToggle (obj : IObject) (i : Nat) (p : Slot → Bool)
    (f : Slot → Slot) : IObject :=
  match obj.mSlots.get? i with
  | none => obj
  | some s =>
    if obj.mState = ObjectState.Realized ∧ s.mRelation = Relation.dynamic
        ∧ p s = true then
      { obj with mSlots := obj.mSlots.set i (f s) }
    else obj

/-- Modelled from the spec: part 1 of asynchronous `AddInterface` — the
slot moves to `INTERFACE_ADDING_1` and the init hook is deferred to the
work queue. -/
def addIfcAsyncStart (obj : IObject) (i : Nat) : IObject :=
  ifcToggle obj i (fun s => s.mState = InterfaceState.Uninitialized)
    (fun s => ⟨s.mRelation, InterfaceState.Adding1, s.mInited⟩)

/-- Modelled from the spec: a cancellation request against a pending
`*_1` interface state moves it to the matching aborted marker. -/
def ifcAbort (obj : IObject) (i : Nat) : IObject :=
  ifcToggle obj i
    (fun s => s.mState = InterfaceState.Adding1 ∨
      s.mState = InterfaceState.Resuming1)
    (fun s =>
      if s.mState = InterfaceState.Adding1 then
        ⟨s.mRelation, InterfaceState.Adding1A, s.mInited⟩
      else ⟨s.mRelation, InterfaceState.Resuming1A, s.mInited⟩)

/-- Modelled from the spec: the worker picking up a deferred interface
job.  A pending `Adding1` runs the init hook and completes to `Added`; an
aborted `Adding1A` skips the hook and falls back to `Uninitialized`; a
pending `Resuming1` completes to `Added`; an aborted `Resuming1A` falls
back to `Suspended`. -/
def ifcWorker (obj : IObject) (i : Nat) : IObject :=
  ifcToggle obj i
    (fun s => s.mState = InterfaceState.Adding1 ∨
      s.mState = InterfaceState.Adding1A ∨
      s.mState = InterfaceState.Resuming1 ∨
      s.mState = InterfaceState.Resuming1A)
    (fun s =>
      if s.mState = InterfaceState.Adding1 then
        ⟨s.mRelation, InterfaceState.Added, true⟩
      else if s.mState = InterfaceState.Adding1A then
        ⟨s.mRelation, InterfaceState.Uninitialized, false⟩
      else if s.mState = InterfaceState.Resuming1 then
        ⟨s.mRelation, InterfaceState.Added, s.mInited⟩
      else ⟨s.mRelation, InterfaceState.Suspended, s.mInited⟩)

/-- Modelled from the spec: suspending an `Added` interface (through the
elided `INTERFACE_SUSPENDING` phase). -/
def ifcSuspend (obj : IObject) (i : Nat) : IObject :=
  ifcToggle obj i (fun s => s.mState = InterfaceState.Added)
    (fun s => ⟨s.mRelation, InterfaceState.Suspended, s.mInited⟩)

/-- Modelled from the spec: synchronous resume of a `Suspended` interface
back to `Added` (through the elided `INTERFACE_RESUMING_2` phase). -/
def ifcResumeSync (obj : IObject) (i : Nat) : IObject :=
  ifcToggle obj i (fun s => s.mState = InterfaceState.Suspended)
    (fun s => ⟨s.mRelation, InterfaceState.Added, s.mInited⟩)

/-- Modelled from the spec: part 1 of asynchronous interface resume. -/
def ifcResumeAsyncStart (obj : IObject) (i : Nat) : IObject :=
  ifcToggle obj i (fun s => s.mState = InterfaceState.Suspended)
    (fun s => ⟨s.mRelation, InterfaceState.Resuming1, s.mInited⟩)

/-- Modelled from the spec: the worker picking up a deferred object
realize.  A pending `Realizing1` runs the realize hook (the
`SL_OBJECT_STATE_REALIZING_2` phase) and completes to `Realized`; an
aborted `Realizing1A` skips the hook and falls back to `Unrealized`.  The
second component records whether the hook ran. -/
def workerRealizePickup : ObjectState → ObjectState × Bool
  | ObjectState.Realizing1 => (ObjectState.Realized, true)
  | ObjectState.Realizing1A => (ObjectState.Unrealized, false)
  | s => (s, false)

/-- Modelled from the spec: the worker picking up a deferred object
resume; an aborted `Resuming1A` skips the hook and falls back to
`Suspended`. -/
def workerResumePickup : ObjectState → ObjectState × Bool
  | ObjectState.Resuming1 => (ObjectState.Realized, true)
  | ObjectState.Resuming1A => (ObjectState.Suspended, false)
  | s => (s, false)

/-- Operations of the lifecycle state machine and the interface toggle
protocol, modelled from the spec. -/
inductive LcOp where
  | realizeSync
  | realizeAsyncStart
  | realizeAbort
  | workerRealize
  | objSuspend
  | resumeSync
  | resumeAsyncStart
  | resumeAbort
  | workerResume
  | addIfcSyncOp (i : Nat)
  | addIfcAsyncStartOp (i : Nat)
  | ifcAbortOp (i : Nat)
  | ifcWorkerOp (i : Nat)
  | removeIfcOp (i : Nat)
  | ifcSuspendOp (i : Nat)
  | ifcResumeSyncOp (i : Nat)
  | ifcResumeAsyncStartOp (i : Nat)
  | destroy
  deriving DecidableEq

/-- Modelled from the spec: one transition of the object.  Synchronous
realize and resume pass through `SL_OBJECT_STATE_REALIZING_2` /
`RESUMING_2` while the hook runs and end in `Realized` (recorded by the
`mPassedRealizing2` history flag for realize); an illegal predecessor
state leaves the object unchanged.  `destroy` is terminal: it forces
every interface back to `Uninitialized` and marks the object
`Destroyed`. -/
def lcStep (obj : IObject) (op : LcOp) : IObject :=
  match op with
  | LcOp.realizeSync =>
    if obj.mState = ObjectState.Unrealized then
      { obj with mState := ObjectState.Realized, mPassedRealizing2 := true }
    else obj
  | LcOp.realizeAsyncStart =>
    if obj.mState = ObjectState.Unrealized then
      { obj with mState := ObjectState.Realizing1 }
    else obj
  | LcOp.realizeAbort =>
    if obj.mState = ObjectState.Realizing1 then
      { obj with mState := ObjectState.Realizing1A }
    else obj
  | LcOp.workerRealize =>
    { obj with
      mState := (workerRealizePickup obj.mState).1
      mPassedRealizing2 :=
        obj.mPassedRealizing2 || (workerRealizePickup obj.mState).2 }
  | LcOp.objSuspend =>
    if obj.mState = ObjectState.Realized then
      { obj with mState := ObjectState.Suspended }
    else obj
  | LcOp.resumeSync =>
    if obj.mState = ObjectState.Suspended then
      { obj with mState := ObjectState.Realized }
    else obj
  | LcOp.resumeAsyncStart =>
    if obj.mState = ObjectState.Suspended then
      { obj with mState := ObjectState.Resuming1 }
    else obj
  | LcOp.resumeAbort =>
    if obj.mState = ObjectState.Resuming1 then
      { obj with mState := ObjectState.Resuming1A }
    else obj
  | LcOp.workerResume =>
    { obj with mState := (workerResumePickup obj.mState).1 }
  | LcOp.addIfcSyncOp i => (IDynamicInterfaceManagement_AddInterface obj i).2
  | LcOp.addIfcAsyncStartOp i => addIfcAsyncStart obj i
  | LcOp.ifcAbortOp i => ifcAbort obj i
  | LcOp.ifcWorkerOp i => ifcWorker obj i
  | LcOp.removeIfcOp i =>
    (IDynamicInterfaceManagement_RemoveInterface obj i).2
  | LcOp.ifcSuspendOp i => ifcSuspend obj i
  | LcOp.ifcResumeSyncOp i => ifcResumeSync obj i
  | LcOp.ifcResumeAsyncStartOp i => ifcResumeAsyncStart obj i
  | LcOp.destroy =>
    { obj with
      mState := ObjectState.Destroyed
      mSlots := obj.mSlots.map
        (fun s => ⟨s.mRelation, InterfaceState.Uninitialized, false⟩) }

/-- Objects reachable from a successful `construct` through lifecycle and
interface-toggle operations. -/
def ReachableObj (obj : IObject) : Prop :=
  ∃ cls exposedMask e obj₀ e' ops,
    construct cls exposedMask e = Except.ok (obj₀, e') ∧
      obj = List.foldl lcStep obj₀ ops

/-- History invariant tying interface states to the realize history: any
post-realize object state, and any `Added` slot, implies the object has
completed the `Realizing2` phase. -/
def LcInv (o : IObject) : Prop :=
  ((o.mState = ObjectState.Realized ∨ o.mState = ObjectState.Suspending ∨
    o.mState = ObjectState.Suspended ∨
    o.mState = ObjectState.Resuming1 ∨
    o.mState = ObjectState.Resuming2 ∨
    o.mState = ObjectState.Resuming1A) → o.mPassedRealizing2 = true) ∧
  (∀ s ∈ o.mSlots, s.mState = InterfaceState.Added →
    o.mPassedRealizing2 = true)

theorem lcInv_setSlot (o : IObject) (i : Nat) (s : Slot) (h : LcInv o)
    (hs : s.mState = InterfaceState.Added → o.mPassedRealizing2 = true) :
    LcInv { o with mSlots := o.mSlots.set i s } := by
  refine ⟨h.1, ?_⟩
  intro t hmem hst
  rcases List.mem_or_eq_of_mem_set hmem with h1 | h2
  · exact h.2 t h1 hst
  · subst h2; exact hs hst

theorem lcInv_ifcToggle (o : IObject) (i : Nat) (p : Slot → Bool)
    (f : Slot → Slot) (h : LcInv o) : LcInv (ifcToggle o i p f) := by
  unfold ifcToggle
  split
  · exact h
  · split
    · next s heq hc =>
      exact lcInv_setSlot o i (f s) h (fun _ => h.1 (Or.inl hc.1))
    · exact h

theorem lcInv_AddInterface (o : IObject) (i : Nat) (h : LcInv o) :
    LcInv (IDynamicInterfaceManagement_AddInterface o i).2 := by
  unfold IDynamicInterfaceManagement_AddInterface
  split
  · exact h
  · split
    · split
      · next h2 =>
        split
        · exact lcInv_setSlot o i _ h (fun _ => h.1 (Or.inl h2))
        · exact h
      · exact h
    · exact h

theorem lcInv_RemoveInterface (o : IObject) (i : Nat) (h : LcInv o) :
    LcInv (IDynamicInterfaceManagement_RemoveInterface o i).2 := by
  unfold IDynamicInterfaceManagement_RemoveInterface
  split
  · exact h
  · split
    · split
      · split
        · exact lcInv_setSlot o i _ h (by simp)
        · exact h
      · exact h
    · exact h

theorem lcInv_step (o : IObject) (op : LcOp) (h : LcInv o) :
    LcInv (lcStep o op) := by
  obtain ⟨hst, hsl⟩ := h
  cases op with
  | realizeSync =>
    simp only [lcStep]
    split
    · exact ⟨fun _ => rfl, fun s hs hadd => rfl⟩
    · exact ⟨hst, hsl⟩
  | realizeAsyncStart =>
    simp only [lcStep]
    split
    · refine ⟨fun hc => ?_, fun s hs hadd => hsl s hs hadd⟩
      rcases hc with hc | hc | hc | hc | hc | hc <;> exact absurd hc (by simp)
    · exact ⟨hst, hsl⟩
  | realizeAbort =>
    simp only [lcStep]
    split
    · refine ⟨fun hc => ?_, fun s hs hadd => hsl s hs hadd⟩
      rcases hc with hc | hc | hc | hc | hc | hc <;> exact absurd hc (by simp)
    · exact ⟨hst, hsl⟩
  | workerRealize =>
    simp only [lcStep]
    cases hs : o.mState with
    | Realizing1 =>
      simp only [workerRealizePickup]
      exact ⟨fun _ => by simp, fun t ht hadd => by simp⟩
    | Realizing1A =>
      simp only [workerRealizePickup]
      refine ⟨fun hc => ?_, fun t ht hadd => ?_⟩
      · rcases hc with hc | hc | hc | hc | hc | hc <;> exact absurd hc (by simp)
      · simpa using hsl t ht hadd
    | Unrealized =>
      simp only [workerRealizePickup]
      refine ⟨fun hc => ?_, fun t ht hadd => ?_⟩
      · rcases hc with hc | hc | hc | hc | hc | hc <;> exact absurd hc (by simp)
      · simpa using hsl t ht hadd
    | Realizing2 =>
      simp only [workerRealizePickup]
      refine ⟨fun hc => ?_, fun t ht hadd => ?_⟩
      · rcases hc with hc | hc | hc | hc | hc | hc <;> exact absurd hc (by simp)
      · simpa using hsl t ht hadd
    | Realized =>
      simp only [workerRealizePickup]
      refine ⟨fun _ => ?_, fun t ht hadd => ?_⟩
      · simpa using hst (Or.inl hs)
      · simpa using hsl t ht hadd
    | Suspending =>
      simp only [workerRealizePickup]
      refine ⟨fun _ => ?_, fun t ht hadd => ?_⟩
      · simpa using hst (Or.inr (Or.inl hs))
      · simpa using hsl t ht hadd
    | Suspended =>
      simp only [workerRealizePickup]
      refine ⟨fun _ => ?_, fun t ht hadd => ?_⟩
      · simpa using hst (Or.inr (Or.inr (Or.inl hs)))
      · simpa using hsl t ht hadd
    | Resuming1 =>
      simp only [workerRealizePickup]
      refine ⟨fun _ => ?_, fun t ht hadd => ?_⟩
      · simpa using hst (Or.inr (Or.inr (Or.inr (Or.inl hs))))
      · simpa using hsl t ht hadd
    | Resuming2 =>
      simp only [workerRealizePickup]
      refine ⟨fun _ => ?_, fun t ht hadd => ?_⟩
      · simpa using hst (Or.inr (Or.inr (Or.inr (Or.inr (Or.inl hs)))))
      · simpa using hsl t ht hadd
    | Resuming1A =>
      simp only [workerRealizePickup]
      refine ⟨fun _ => ?_, fun t ht hadd => ?_⟩
      · simpa using hst (Or.inr (Or.inr (Or.inr (Or.inr (Or.inr hs)))))
      · simpa using hsl t ht hadd
    | Destroyed =>
      simp only [workerRealizePickup]
      refine ⟨fun hc => ?_, fun t ht hadd => ?_⟩
      · rcases hc with hc | hc | hc | hc | hc | hc <;> exact absurd hc (by simp)
      · simpa using hsl t ht hadd
  | objSuspend =>
    simp only [lcStep]
    split
    · next hr => exact ⟨fun _ => hst (Or.inl hr), fun t ht hadd => hsl t ht hadd⟩
    · exact ⟨hst, hsl⟩
  | resumeSync =>
    simp only [lcStep]
    split
    · next hr =>
      exact ⟨fun _ => hst (Or.inr (Or.inr (Or.inl hr))),
        fun t ht hadd => hsl t ht hadd⟩
    · exact ⟨hst, hsl⟩
  | resumeAsyncStart =>
    simp only [lcStep]
    split
    · next hr =>
      exact ⟨fun _ => hst (Or.inr (Or.inr (Or.inl hr))),
        fun t ht hadd => hsl t ht hadd⟩
    · exact ⟨hst, hsl⟩
  | resumeAbort =>
    simp only [lcStep]
    split
    · next hr =>
      exact ⟨fun _ => hst (Or.inr (Or.inr (Or.inr (Or.inl hr)))),
        fun t ht hadd => hsl t ht hadd⟩
    · exact ⟨hst, hsl⟩
  | workerResume =>
    simp only [lcStep]
    cases hs : o.mState with
    | Resuming1 =>
      simp only [workerResumePickup]
      exact ⟨fun _ => hst (Or.inr (Or.inr (Or.inr (Or.inl hs)))),
        fun t ht hadd => hsl t ht hadd⟩
    | Resuming1A =>
      simp only [workerResumePickup]
      exact ⟨fun _ => hst (Or.inr (Or.inr (Or.inr (Or.inr (Or.inr hs))))),
        fun t ht hadd => hsl t ht hadd⟩
    | Unrealized =>
      simp only [workerResumePickup]
      refine ⟨fun hc => ?_, fun t ht hadd => hsl t ht hadd⟩
      rcases hc with hc | hc | hc | hc | hc | hc <;> exact absurd hc (by simp)
    | Realizing1 =>
      simp only [workerResumePickup]
      refine ⟨fun hc => ?_, fun t ht hadd => hsl t ht hadd⟩
      rcases hc with hc | hc | hc | hc | hc | hc <;> exact absurd hc (by simp)
    | Realizing2 =>
      simp only [workerResumePickup]
      refine ⟨fun hc => ?_, fun t ht hadd => hsl t ht hadd⟩
      rcases hc with hc | hc | hc | hc | hc | hc <;> exact absurd hc (by simp)
    | Realized =>
      simp only [workerResumePickup]
      exact ⟨fun _ => hst (Or.inl hs), fun t ht hadd => hsl t ht hadd⟩
    | Suspending =>
      simp only [workerResumePickup]
      exact ⟨fun _ => hst (Or.inr (Or.inl hs)), fun t ht hadd => hsl t ht hadd⟩
    | Suspended =>
      simp only [workerResumePickup]
      exact ⟨fun _ => hst (Or.inr (Or.inr (Or.inl hs))),
        fun t ht hadd => hsl t ht hadd⟩
    | Resuming2 =>
      simp only [workerResumePickup]
      exact ⟨fun _ => hst (Or.inr (Or.inr (Or.inr (Or.inr (Or.inl hs))))),
        fun t ht hadd => hsl t ht hadd⟩
    | Realizing1A =>
      simp only [workerResumePickup]
      refine ⟨fun hc => ?_, fun t ht hadd => hsl t ht hadd⟩
      rcases hc with hc | hc | hc | hc | hc | hc <;> exact absurd hc (by simp)
    | Destroyed =>
      simp only [workerResumePickup]
      refine ⟨fun hc => ?_, fun t ht hadd => hsl t ht hadd⟩
      rcases hc with hc | hc | hc | hc | hc | hc <;> exact absurd hc (by simp)
  | addIfcSyncOp i => exact lcInv_AddInterface o i ⟨hst, hsl⟩
  | addIfcAsyncStartOp i => exact lcInv_ifcToggle o i _ _ ⟨hst, hsl⟩
  | ifcAbortOp i => exact lcInv_ifcToggle o i _ _ ⟨hst, hsl⟩
  | ifcWorkerOp i => exact lcInv_ifcToggle o i _ _ ⟨hst, hsl⟩
  | removeIfcOp i => exact lcInv_RemoveInterface o i ⟨hst, hsl⟩
  | ifcSuspendOp i => exact lcInv_ifcToggle o i _ _ ⟨hst, hsl⟩
  | ifcResumeSyncOp i => exact lcInv_ifcToggle o i _ _ ⟨hst, hsl⟩
  | ifcResumeAsyncStartOp i => exact lcInv_ifcToggle o i _ _ ⟨hst, hsl⟩
  | destroy =>
    simp only [lcStep]
    refine ⟨fun hc => ?_, fun t ht hadd => ?_⟩
    · rcases hc with hc | hc | hc | hc | hc | hc <;> exact absurd hc (by simp)
    · simp only [List.mem_map] at ht
      obtain ⟨a, _, rfl⟩ := ht
      exact absurd hadd (by simp)

theorem initSlots_states (cls : ClassInterfaces) (exposedMask : Nat) :
    ∀ k s, s ∈ initSlots cls exposedMask k →
      s.mState = InterfaceState.Exposed ∨
        s.mState = InterfaceState.Uninitialized := by
  induction cls with
  | nil => intro k s hs; simp [initSlots] at hs
  | cons hd tl ih =>
    intro k s hs
    simp only [initSlots, List.mem_cons] at hs
    rcases hs with rfl | hs
    · split <;> simp
    · exact ih (k + 1) s hs

theorem lcInv_construct (cls : ClassInterfaces) (exposedMask : Nat)
    (e : IEngine) (obj : IObject) (e' : IEngine)
    (h : construct cls exposedMask e = Except.ok (obj, e')) : LcInv obj := by
  by_cases h32 : MAX_INSTANCE ≤ e.mInstanceCount
  · simp [construct, if_pos h32] at h
  · simp only [construct, if_neg h32, if_false] at h
    obtain ⟨h1, h2⟩ := Prod.mk.inj (Except.ok.inj h)
    subst h1
    refine ⟨fun hc => ?_, fun s hs hadd => ?_⟩
    · rcases hc with hc | hc | hc | hc | hc | hc <;> exact absurd hc (by simp)
    · rcases initSlots_states cls exposedMask 0 s hs with h' | h' <;>
        simp [hadd] at h'

theorem lcInv_foldl (ops : List LcOp) (o : IObject) (h : LcInv o) :
    LcInv (List.foldl lcStep o ops) := by
  induction ops generalizing o with
  | nil => exact h
  | cons op rest ih => exact ih (lcStep o op) (lcInv_step o op h)

/-- C4: in every reachable object state, no interface slot is `Added`
unless the object has completed at least the
`SL_OBJECT_STATE_REALIZING_2` phase of a realize. -/
theorem added_requires_realizing2 (o : IObject) (h : ReachableObj o) :
    ∀ s ∈ o.mSlots, s.mState = InterfaceState.Added →
      o.mPassedRealizing2 = true := by
  obtain ⟨cls, exposedMask, e, obj₀, e', ops, hc, rfl⟩ := h
  exact (lcInv_foldl ops obj₀
    (lcInv_construct cls exposedMask e obj₀ e' hc)).2

/-- C3: `AddInterface` and `RemoveInterface` on an `Implicit`- or
`Explicit`-relation slot always fail with
`SL_RESULT_PRECONDITIONS_VIOLATED` and leave the object (hence the
slot's state) unchanged; they return `SL_RESULT_SUCCESS` only on a slot
whose relation is `Dynamic`. -/
theorem addRemove_dynamic_only (obj : IObject) (i : Nat) (s : Slot)
    (hget : obj.mSlots.get? i = some s)
    (hrel : s.mRelation = Relation.implicit ∨
      s.mRelation = Relation.explicit) :
    IDynamicInterfaceManagement_AddInterface obj i =
      (SL_RESULT_PRECONDITIONS_VIOLATED, obj) ∧
    IDynamicInterfaceManagement_RemoveInterface obj i =
      (SL_RESULT_PRECONDITIONS_VIOLATED, obj) ∧
    (∀ o' k t, o'.mSlots.get? k = some t →
      (IDynamicInterfaceManagement_AddInterface o' k).1 =
        SL_RESULT_SUCCESS → t.mRelation = Relation.dynamic) ∧
    (∀ o' k t, o'.mSlots.get? k = some t →
      (IDynamicInterfaceManagement_RemoveInterface o' k).1 =
        SL_RESULT_SUCCESS → t.mRelation = Relation.dynamic) := by
  have hnd : ¬ s.mRelation = Relation.dynamic := by
    rcases hrel with h | h <;> simp [h]
  have hget2 : obj.mSlots[i]? = some s := by
    rw [← List.get?_eq_getElem?]; exact hget
  refine ⟨?_, ?_, ?_, ?_⟩
  · simp [IDynamicInterfaceManagement_AddInterface, hget2, hnd]
  · simp [IDynamicInterfaceManagement_RemoveInterface, hget2, hnd]
  · intro o' k t hget' hres
    have hget'2 : o'.mSlots[k]? = some t := by
      rw [← List.get?_eq_getElem?]; exact hget'
    by_contra hnd'
    simp [IDynamicInterfaceManagement_AddInterface, hget'2, hnd',
      SL_RESULT_SUCCESS, SL_RESULT_PRECONDITIONS_VIOLATED] at hres
  · intro o' k t hget' hres
    have hget'2 : o'.mSlots[k]? = some t := by
      rw [← List.get?_eq_getElem?]; exact hget'
    by_contra hnd'
    simp [IDynamicInterfaceManagement_RemoveInterface, hget'2, hnd',
      SL_RESULT_SUCCESS, SL_RESULT_PRECONDITIONS_VIOLATED] at hres

/-- C5: for an object pending an asynchronous realize in `Realizing1`, an
abort request moves it to `Realizing1A`; when the worker then picks up
the job it does not run the realize hook, the object transitions back to
`Unrealized`, and it does not reach `Realized` on that execution. -/
theorem abort_before_hook_skips (o : IObject)
    (h : o.mState = ObjectState.Realizing1) :
    (lcStep o LcOp.realizeAbort).mState = ObjectState.Realizing1A ∧
    (lcStep (lcStep o LcOp.realizeAbort) LcOp.workerRealize).mState =
      ObjectState.Unrealized ∧
    (lcStep (lcStep o LcOp.realizeAbort) LcOp.workerRealize).mState ≠
      ObjectState.Realized ∧
    (workerRealizePickup (lcStep o LcOp.realizeAbort).mState).2 = false := by
  simp [lcStep, h, workerRealizePickup]

/-! ## checkInterfaces -/

/-- Helper of `lookupIfc`: scan the class `iid_vtable` for an interface
id, counting slots from `idx`. -/
def lookupAux : ClassInterfaces → Nat → Nat → Option (Nat × Relation)
  | [], _, _ => none
  | (iid, rel) :: rest, target, idx =>
    if iid = target then some (idx, rel) else lookupAux rest target (idx + 1)

/-- Modelled from the spec: the capability registry lookup
`lookup(class, interfaceId) → (relation, offset) | NotFound` (in C, the
composition of `IID_to_MPH` with the class `mMPH_to_index` table); the
slot index plays the role of the storage offset. -/
def lookupIfc (cls : ClassInterfaces) (iid : Nat) :
    Option (Nat × Relation) :=
  lookupAux cls iid 0

/-- Helper of `implicitMask`: bits of the `Implicit`-relation slots,
counting slots from `i`. -/
def implicitMaskAux : ClassInterfaces → Nat → Nat
  | [], _ => 0
  | (_, rel) :: rest, i =>
    (if rel = Relation.implicit then 2 ^ i else 0) |||
      implicitMaskAux rest (i + 1)

/-- Mask holding one set bit for every `Implicit`-relation slot of the
class: the interfaces exposed whether or not they were requested. -/
def implicitMask (cls : ClassInterfaces) : Nat :=
  implicitMaskAux cls 0

/-- Modelled from the spec: the request-processing loop of
`checkInterfaces`.  A duplicate or unknown interface id fails with
`SL_RESULT_PARAMETER_INVALID`; an `Unavailable` relation fails with
`SL_RESULT_FEATURE_UNSUPPORTED` regardless of the required flag; an
`Optional`/`Dynamic` interface absent from this build (`present iid =
false`) is tolerated and simply not exposed when not required, and fails
`SL_RESULT_FEATURE_UNSUPPORTED` when required; every other request sets
the slot's bit in the exposed mask. -/
def checkRequests (cls : ClassInterfaces) (present : Nat → Bool) :
    List (Nat × Bool) → List Nat → Nat → Except Nat Nat
  | [], _, mask => Except.ok mask
  | (iid, required) :: rest, seen, mask =>
    if iid ∈ seen then Except.error SL_RESULT_PARAMETER_INVALID
    else
      match lookupIfc cls iid with
      | none => Except.error SL_RESULT_PARAMETER_INVALID
      | some (idx, rel) =>
        match rel with
        | Relation.unavailable =>
          Except.error SL_RESULT_FEATURE_UNSUPPORTED
        | Relation.implicit =>
          checkRequests cls present rest (iid :: seen) (mask ||| 2 ^ idx)
        | Relation.explicit =>
          checkRequests cls present rest (iid :: seen) (mask ||| 2 ^ idx)
        | Relation.optional =>
          if present iid then
            checkRequests cls present rest (iid :: seen) (mask ||| 2 ^ idx)
          else if required then
            Except.error SL_RESULT_FEATURE_UNSUPPORTED
          else checkRequests cls present rest (iid :: seen) mask
        | Relation.dynamic =>
          if present iid then
            checkRequests cls present rest (iid :: seen) (mask ||| 2 ^ idx)
          else if required then
            Except.error SL_RESULT_FEATURE_UNSUPPORTED
          else checkRequests cls present rest (iid :: seen) mask

/-- Modelled from the spec: `checkInterfaces` (declared at
`sles_allinclusive.h` lines 955-957; its body, in `sles.c`, is not part
of the excerpt).  Starting from the mask of `Implicit` slots, which are
forced into the mask even if not requested, it processes the request
list `requests` (pairs of interface id and required flag) and returns the
exposed mask or an error.  `present` records which interfaces this build
provides. -/
def checkInterfaces (cls : ClassInterfaces) (requests : List (Nat × Bool))
    (present : Nat → Bool) : Except Nat Nat :=
  checkRequests cls present requests [] (implicitMask cls)

theorem lookupAux_get? (cls : ClassInterfaces) (target : Nat) :
    ∀ k idx rel, lookupAux cls target k = some (idx, rel) →
      k ≤ idx ∧ cls.get? (idx - k) = some (target, rel) := by
  induction cls with
  | nil => intro k idx rel h; simp [lookupAux] at h
  | cons hd tl ih =>
    intro k idx rel h
    simp only [lookupAux] at h
    split at h
    · next heq =>
      obtain ⟨h1, h2⟩ := Prod.mk.inj (Option.some.inj h)
      subst h1
      subst h2
      subst heq
      exact ⟨Nat.le_refl _, by simp⟩
    · obtain ⟨hk, hget⟩ := ih (k + 1) idx rel h
      refine ⟨by omega, ?_⟩
      have : idx - k = (idx - (k + 1)) + 1 := by omega
      rw [this]
      simpa using hget

theorem lookupIfc_get? (cls : ClassInterfaces) (target idx : Nat)
    (rel : Relation) (h : lookupIfc cls target = some (idx, rel)) :
    cls.get? idx = some (target, rel) := by
  have := lookupAux_get? cls target 0 idx rel h
  simpa using this.2

theorem implicitMaskAux_testBit_of_get? (cls : ClassInterfaces) :
    ∀ k i iid, cls.get? i = some (iid, Relation.implicit) →
      (implicitMaskAux cls k).testBit (k + i) = true := by
  induction cls with
  | nil => intro k i iid h; simp at h
  | cons hd tl ih =>
    intro k i iid h
    cases i with
    | zero =>
      simp only [List.get?_cons_zero, Option.some.injEq] at h
      subst h
      simp [implicitMaskAux, Nat.testBit_or, Nat.testBit_two_pow_self]
    | succ n =>
      simp only [List.get?_cons_succ] at h
      have := ih (k + 1) n iid h
      simp only [implicitMaskAux, Nat.testBit_or]
      have harith : k + (n + 1) = k + 1 + n := by omega
      rw [harith, this]
      simp

theorem implicitMaskAux_testBit_imp (cls : ClassInterfaces) :
    ∀ k j, (implicitMaskAux cls k).testBit j = true →
      ∃ iid, k ≤ j ∧ cls.get? (j - k) = some (iid, Relation.implicit) := by
  induction cls with
  | nil =>
    intro k j h
    simp [implicitMaskAux, Nat.zero_testBit] at h
  | cons hd tl ih =>
    intro k j h
    obtain ⟨a, r⟩ := hd
    simp only [implicitMaskAux, Nat.testBit_or, Bool.or_eq_true] at h
    rcases h with h | h
    · split at h
      · next hrel =>
        subst hrel
        have hkj : k = j := by
          by_contra hne
          rw [Nat.testBit_two_pow_of_ne hne] at h
          exact Bool.false_ne_true h
        subst hkj
        exact ⟨a, Nat.le_refl _, by simp⟩
      · simp [Nat.zero_testBit] at h
    · obtain ⟨iid, hk, hget⟩ := ih (k + 1) j h
      refine ⟨iid, by omega, ?_⟩
      have harith : j - k = (j - (k + 1)) + 1 := by omega
      rw [harith]
      simpa using hget

theorem checkRequests_sound_step (cls : ClassInterfaces)
    (mask m idx iid : Nat) (rel : Relation)
    (hcls : cls.get? idx = some (iid, rel))
    (hrel : rel ≠ Relation.unavailable)
    (hmono : ∀ j, (mask ||| 2 ^ idx).testBit j = true →
      m.testBit j = true)
    (hsound : ∀ j, m.testBit j = true →
      (mask ||| 2 ^ idx).testBit j = true ∨
      ∃ iid' rel', cls.get? j = some (iid', rel') ∧
        rel' ≠ Relation.unavailable) :
    (∀ j, mask.testBit j = true → m.testBit j = true) ∧
    (∀ j, m.testBit j = true → mask.testBit j = true ∨
      ∃ iid' rel', cls.get? j = some (iid', rel') ∧
        rel' ≠ Relation.unavailable) := by
  refine ⟨fun j hj => hmono j (by simp [Nat.testBit_or, hj]), ?_⟩
  intro j hj
  rcases hsound j hj with hj' | hj'
  · rw [Nat.testBit_or, Bool.or_eq_true] at hj'
    rcases hj' with hj' | hj'
    · exact Or.inl hj'
    · have hkj : idx = j := by
        by_contra hne
        rw [Nat.testBit_two_pow_of_ne hne] at hj'
        exact Bool.false_ne_true hj'
      subst hkj
      exact Or.inr ⟨iid, rel, hcls, hrel⟩
  · exact Or.inr hj'

theorem checkRequests_sound (cls : ClassInterfaces) (present : Nat → Bool) :
    ∀ reqs seen mask m,
      checkRequests cls present reqs seen mask = Except.ok m →
      (∀ j, mask.testBit j = true → m.testBit j = true) ∧
      (∀ j, m.testBit j = true → mask.testBit j = true ∨
        ∃ iid' rel', cls.get? j = some (iid', rel') ∧
          rel' ≠ Relation.unavailable) := by
  intro reqs
  induction reqs with
  | nil =>
    intro seen mask m h
    have hm : mask = m := Except.ok.inj h
    subst hm
    exact ⟨fun j hj => hj, fun j hj => Or.inl hj⟩
  | cons req rest ih =>
    intro seen mask m h
    obtain ⟨iid, required⟩ := req
    simp only [checkRequests] at h
    split at h
    · exact absurd h (by simp)
    · split at h
      · exact absurd h (by simp)
      · next idx rel heq =>
        split at h
        · exact absurd h (by simp)
        · obtain ⟨hmono, hsound⟩ := ih (iid :: seen) (mask ||| 2 ^ idx) m h
          exact checkRequests_sound_step cls mask m idx iid Relation.implicit
            (lookupIfc_get? cls iid idx Relation.implicit heq) (by simp)
            hmono hsound
        · obtain ⟨hmono, hsound⟩ := ih (iid :: seen) (mask ||| 2 ^ idx) m h
          exact checkRequests_sound_step cls mask m idx iid Relation.explicit
            (lookupIfc_get? cls iid idx Relation.explicit heq) (by simp)
            hmono hsound
        · split at h
          · obtain ⟨hmono, hsound⟩ := ih (iid :: seen) (mask ||| 2 ^ idx) m h
            exact checkRequests_sound_step cls mask m idx iid
              Relation.optional
              (lookupIfc_get? cls iid idx Relation.optional heq) (by simp)
              hmono hsound
          · split at h
            · exact absurd h (by simp)
            · exact ih (iid :: seen) mask m h
        · split at h
          · obtain ⟨hmono, hsound⟩ := ih (iid :: seen) (mask ||| 2 ^ idx) m h
            exact checkRequests_sound_step cls mask m idx iid
              Relation.dynamic
              (lookupIfc_get? cls iid idx Relation.dynamic heq) (by simp)
              hmono hsound
          · split at h
            · exact absurd h (by simp)
            · exact ih (iid :: seen) mask m h

/-- C1: whenever `checkInterfaces` succeeds, the returned exposed mask
has the bit of every `Implicit`-relation slot set — whether or not that
interface was requested — and the bit of every `Unavailable`-relation
slot clear. -/
theorem checkInterfaces_implicit_unavailable (cls : ClassInterfaces)
    (requests : List (Nat × Bool)) (present : Nat → Bool) (m : Nat)
    (h : checkInterfaces cls requests present = Except.ok m) :
    ∀ i iid rel, cls.get? i = some (iid, rel) →
      ((rel = Relation.implicit → m.testBit i = true) ∧
       (rel = Relation.unavailable → m.testBit i = false)) := by
  obtain ⟨hmono, hsound⟩ :=
    checkRequests_sound cls present requests [] (implicitMask cls) m h
  intro i iid rel hget
  constructor
  · intro hrel
    subst hrel
    refine hmono i ?_
    have := implicitMaskAux_testBit_of_get? cls 0 i iid hget
    simpa [implicitMask] using this
  · intro hrel
    subst hrel
    cases hbit : m.testBit i with
    | false => rfl
    | true =>
      exfalso
      rcases hsound i hbit with hj | hj
      · obtain ⟨iid', hk, hget'⟩ :=
          implicitMaskAux_testBit_imp cls 0 i hj
        simp only [Nat.sub_zero] at hget'
        rw [hget] at hget'
        obtain ⟨h1, h2⟩ := Prod.mk.inj (Option.some.inj hget')
        exact absurd h2.symm (by simp)
      · obtain ⟨iid', rel', hget', hne⟩ := hj
        rw [hget] at hget'
        obtain ⟨h1, h2⟩ := Prod.mk.inj (Option.some.inj hget')
        exact hne h2.symm

/-! ## Theorems for IAudioEncoderCapabilities.c -/

/-- C8: `GetAudioEncoders` called with a `NULL` `pNumEncoders` returns
`SL_RESULT_PARAMETER_INVALID` and writes to neither output; called with
`pNumEncoders` non-`NULL` and `pEncoderIds` `NULL`, it stores
`MAX_ENCODERS` into `*pNumEncoders` and returns `SL_RESULT_SUCCESS`. -/
theorem GetAudioEncoders_null_checks (maxEncoders : Nat)
    (encoderIDs : List Nat) :
    (∀ b, IAudioEncoderCapabilities_GetAudioEncoders maxEncoders
        encoderIDs none b =
      ⟨SL_RESULT_PARAMETER_INVALID, none, []⟩) ∧
    (∀ n, IAudioEncoderCapabilities_GetAudioEncoders maxEncoders
        encoderIDs (some n) true =
      ⟨SL_RESULT_SUCCESS, some maxEncoders, []⟩) :=
  ⟨fun _ => rfl, fun _ => rfl⟩

/-- C9: `GetAudioEncoders` with both pointers non-`NULL` returns
`SL_RESULT_SUCCESS`, copies exactly `min {star}pNumEncoders MAX_ENCODERS`
ids from the start of `Encoder_IDs`, and overwrites `{star}pNumEncoders`
(with `MAX_ENCODERS`) only when its input value was at least
`MAX_ENCODERS`; a smaller input value is left unchanged. -/
theorem GetAudioEncoders_copies_min (maxEncoders n : Nat)
    (encoderIDs : List Nat) (hlen : maxEncoders ≤ encoderIDs.length) :
    (IAudioEncoderCapabilities_GetAudioEncoders maxEncoders encoderIDs
      (some n) false).res = SL_RESULT_SUCCESS ∧
    (IAudioEncoderCapabilities_GetAudioEncoders maxEncoders encoderIDs
      (some n) false).idsWritten =
        encoderIDs.take (min n maxEncoders) ∧
    (IAudioEncoderCapabilities_GetAudioEncoders maxEncoders encoderIDs
      (some n) false).idsWritten.length = min n maxEncoders ∧
    (maxEncoders ≤ n →
      (IAudioEncoderCapabilities_GetAudioEncoders maxEncoders encoderIDs
        (some n) false).pNumOut = some maxEncoders) ∧
    (n < maxEncoders →
      (IAudioEncoderCapabilities_GetAudioEncoders maxEncoders encoderIDs
        (some n) false).pNumOut = some n) := by
  by_cases hc : maxEncoders ≤ n
  · have hmin : min n maxEncoders = maxEncoders := by omega
    refine ⟨rfl, ?_, ?_, fun _ => ?_, fun hlt => absurd hc (by omega)⟩
    · simp [IAudioEncoderCapabilities_GetAudioEncoders, hc, hmin]
    · simp only [IAudioEncoderCapabilities_GetAudioEncoders, if_pos hc,
        Bool.false_eq_true, if_false, hmin, List.length_take]
      omega
    · simp [IAudioEncoderCapabilities_GetAudioEncoders, hc]
  · have hmin : min n maxEncoders = n := by omega
    refine ⟨rfl, ?_, ?_, fun hge => absurd hge hc, fun _ => ?_⟩
    · simp [IAudioEncoderCapabilities_GetAudioEncoders, hc, hmin]
    · simp only [IAudioEncoderCapabilities_GetAudioEncoders, if_neg hc,
        Bool.false_eq_true, if_false, hmin, List.length_take]
      omega
    · simp [IAudioEncoderCapabilities_GetAudioEncoders, hc]

/-- C10: `IAudioEncoderCapabilities_init` sets only the `mItf` field — to
the shared vtable holding `GetAudioEncoders` and
`GetAudioEncoderCapabilities` — and leaves every other field of the
structure, in particular `mThis`, unchanged. -/
theorem init_sets_only_mItf (maxEncoders : Nat) (encoderIDs : List Nat)
    (getCodecCapabilities : Nat → Option Nat → Option Nat → Nat)
    (self : IAudioEncoderCapabilities) :
    (IAudioEncoderCapabilities_init maxEncoders encoderIDs
      getCodecCapabilities self).mThis = self.mThis ∧
    (IAudioEncoderCapabilities_init maxEncoders encoderIDs
      getCodecCapabilities self).mItf =
      some (IAudioEncoderCapabilities_Itf maxEncoders encoderIDs
        getCodecCapabilities) ∧
    (IAudioEncoderCapabilities_Itf maxEncoders encoderIDs
      getCodecCapabilities).mGetAudioEncoders =
      IAudioEncoderCapabilities_GetAudioEncoders maxEncoders encoderIDs ∧
    (IAudioEncoderCapabilities_Itf maxEncoders encoderIDs
      getCodecCapabilities).mGetAudioEncoderCapabilities =
      IAudioEncoderCapabilities_GetAudioEncoderCapabilities
        getCodecCapabilities :=
  ⟨rfl, rfl, rfl, rfl⟩

/-! ## Witnesses -/

/-- Witness for C1 at a concrete class (implicit, unavailable and
explicit slots) with the explicit interface requested: the returned mask
is 5, exposing the implicit slot 0 and not the unavailable slot 1. -/
theorem checkInterfaces_implicit_unavailable_witness :
    Nat.testBit 5 0 = true ∧ Nat.testBit 5 1 = false :=
  ⟨(checkInterfaces_implicit_unavailable
      [(1, Relation.implicit), (2, Relation.unavailable),
        (3, Relation.explicit)]
      [(3, true)] (fun _ => true) 5 rfl 0 1 Relation.implicit rfl).1 rfl,
   (checkInterfaces_implicit_unavailable
      [(1, Relation.implicit), (2, Relation.unavailable),
        (3, Relation.explicit)]
      [(3, true)] (fun _ => true) 5 rfl 1 2 Relation.unavailable rfl).2 rfl⟩

/-- Witness for C2: after 32 constructs the engine is at capacity and the
next `construct` fails with `SL_RESULT_RESOURCE_ERROR`; a set mask bit is
cleared exactly by the destroy of that slot. -/
theorem engine_instance_table_bounded_witness :
    (List.foldl engStep (engInit 0)
      (List.replicate 32 (EngOp.construct [] 0))).mInstanceCount ≤
        MAX_INSTANCE ∧
    EngOp.destroy 0 = EngOp.destroy 0 ∧
    construct [] 0 (List.foldl engStep (engInit 0)
      (List.replicate 32 (EngOp.construct [] 0))) =
        Except.error SL_RESULT_RESOURCE_ERROR :=
  ⟨engine_instance_table_bounded.1 _
      ⟨0, List.replicate 32 (EngOp.construct [] 0), rfl⟩,
   engine_instance_table_bounded.2.1
      (engStep (engInit 0) (EngOp.construct [] 0)) (EngOp.destroy 0) 0
      (by decide) (by decide),
   engine_instance_table_bounded.2.2 _ [] 0 (by decide)⟩

/-- Witness for C3 at concrete objects: Add and Remove on an
`explicit`-relation slot fail with `SL_RESULT_PRECONDITIONS_VIOLATED`
without touching the object, and the successful Add and Remove shown are
on `dynamic`-relation slots. -/
theorem addRemove_dynamic_only_witness :
    IDynamicInterfaceManagement_AddInterface
      ⟨0, 0, 0, ObjectState.Realized, true,
        [⟨Relation.explicit, InterfaceState.Exposed, true⟩]⟩ 0 =
      (SL_RESULT_PRECONDITIONS_VIOLATED,
        ⟨0, 0, 0, ObjectState.Realized, true,
          [⟨Relation.explicit, InterfaceState.Exposed, true⟩]⟩) ∧
    IDynamicInterfaceManagement_RemoveInterface
      ⟨0, 0, 0, ObjectState.Realized, true,
        [⟨Relation.explicit, InterfaceState.Exposed, true⟩]⟩ 0 =
      (SL_RESULT_PRECONDITIONS_VIOLATED,
        ⟨0, 0, 0, ObjectState.Realized, true,
          [⟨Relation.explicit, InterfaceState.Exposed, true⟩]⟩) ∧
    (⟨Relation.dynamic, InterfaceState.Uninitialized, false⟩ :
        Slot).mRelation = Relation.dynamic ∧
    (⟨Relation.dynamic, InterfaceState.Added, true⟩ :
        Slot).mRelation = Relation.dynamic :=
  ⟨(addRemove_dynamic_only
      ⟨0, 0, 0, ObjectState.Realized, true,
        [⟨Relation.explicit, InterfaceState.Exposed, true⟩]⟩ 0
      ⟨Relation.explicit, InterfaceState.Exposed, true⟩ rfl
      (Or.inr rfl)).1,
   (addRemove_dynamic_only
      ⟨0, 0, 0, ObjectState.Realized, true,
        [⟨Relation.explicit, InterfaceState.Exposed, true⟩]⟩ 0
      ⟨Relation.explicit, InterfaceState.Exposed, true⟩ rfl
      (Or.inr rfl)).2.1,
   (addRemove_dynamic_only
      ⟨0, 0, 0, ObjectState.Realized, true,
        [⟨Relation.explicit, InterfaceState.Exposed, true⟩]⟩ 0
      ⟨Relation.explicit, InterfaceState.Exposed, true⟩ rfl
      (Or.inr rfl)).2.2.1
      ⟨0, 0, 0, ObjectState.Realized, true,
        [⟨Relation.dynamic, InterfaceState.Uninitialized, false⟩]⟩ 0
      ⟨Relation.dynamic, InterfaceState.Uninitialized, false⟩ rfl
      (by decide),
   (addRemove_dynamic_only
      ⟨0, 0, 0, ObjectState.Realized, true,
        [⟨Relation.explicit, InterfaceState.Exposed, true⟩]⟩ 0
      ⟨Relation.explicit, InterfaceState.Exposed, true⟩ rfl
      (Or.inr rfl)).2.2.2
      ⟨0, 0, 0, ObjectState.Realized, true,
        [⟨Relation.dynamic, InterfaceState.Added, true⟩]⟩ 0
      ⟨Relation.dynamic, InterfaceState.Added, true⟩ rfl
      (by decide)⟩

/-- Witness for C4: an object constructed with one dynamic slot, realized
synchronously and with the interface then added, has the
`Realizing2`-completed history flag set. -/
theorem added_requires_realizing2_witness :
    (List.foldl lcStep
      ⟨0, 0, 0, ObjectState.Unrealized, false,
        [⟨Relation.dynamic, InterfaceState.Uninitialized, false⟩]⟩
      [LcOp.realizeSync, LcOp.addIfcSyncOp 0]).mPassedRealizing2 = true :=
  added_requires_realizing2 _
    ⟨[(7, Relation.dynamic)], 0, engInit 0,
      ⟨0, 0, 0, ObjectState.Unrealized, false,
        [⟨Relation.dynamic, InterfaceState.Uninitialized, false⟩]⟩,
      ⟨0, 1, 1, 1, [0]⟩,
      [LcOp.realizeSync, LcOp.addIfcSyncOp 0], rfl, rfl⟩
    ⟨Relation.dynamic, InterfaceState.Added, true⟩ (by decide) rfl

/-- Witness for C5 at a concrete object pending an asynchronous
realize. -/
theorem abort_before_hook_skips_witness :
    (lcStep ⟨0, 0, 0, ObjectState.Realizing1, false, []⟩
      LcOp.realizeAbort).mState = ObjectState.Realizing1A ∧
    (lcStep (lcStep ⟨0, 0, 0, ObjectState.Realizing1, false, []⟩
      LcOp.realizeAbort) LcOp.workerRealize).mState =
        ObjectState.Unrealized ∧
    (lcStep (lcStep ⟨0, 0, 0, ObjectState.Realizing1, false, []⟩
      LcOp.realizeAbort) LcOp.workerRealize).mState ≠
        ObjectState.Realized ∧
    (workerRealizePickup
      (lcStep ⟨0, 0, 0, ObjectState.Realizing1, false, []⟩
        LcOp.realizeAbort).mState).2 = false :=
  abort_before_hook_skips ⟨0, 0, 0, ObjectState.Realizing1, false, []⟩ rfl

/-- Witness for C6: constructing a two-slot class with only slot 0
exposed yields an unrealized object owned by engine 0, slot 0 `Exposed`
with its init hook run and slot 1 `Uninitialized` and zeroed. -/
theorem construct_initializes_witness :
    (⟨0, 0, 0, ObjectState.Unrealized, false,
      [⟨Relation.implicit, InterfaceState.Exposed, true⟩,
       ⟨Relation.dynamic, InterfaceState.Uninitialized, false⟩]⟩ :
        IObject).mState = ObjectState.Unrealized ∧
    (⟨0, 0, 0, ObjectState.Unrealized, false,
      [⟨Relation.implicit, InterfaceState.Exposed, true⟩,
       ⟨Relation.dynamic, InterfaceState.Uninitialized, false⟩]⟩ :
        IObject).mEngine = (engInit 0).mId ∧
    (⟨0, 0, 0, ObjectState.Unrealized, false,
      [⟨Relation.implicit, InterfaceState.Exposed, true⟩,
       ⟨Relation.dynamic, InterfaceState.Uninitialized, false⟩]⟩ :
        IObject).mSlots.get? 0 =
      some ⟨Relation.implicit, InterfaceState.Exposed, true⟩ ∧
    (⟨0, 0, 0, ObjectState.Unrealized, false,
      [⟨Relation.implicit, InterfaceState.Exposed, true⟩,
       ⟨Relation.dynamic, InterfaceState.Uninitialized, false⟩]⟩ :
        IObject).mSlots.get? 1 =
      some ⟨Relation.dynamic, InterfaceState.Uninitialized, false⟩ :=
  ⟨(construct_initializes [(3, Relation.implicit), (4, Relation.dynamic)] 1
      (engInit 0)
      ⟨0, 0, 0, ObjectState.Unrealized, false,
        [⟨Relation.implicit, InterfaceState.Exposed, true⟩,
         ⟨Relation.dynamic, InterfaceState.Uninitialized, false⟩]⟩
      ⟨0, 1, 1, 1, [0]⟩ ⟨0, [], rfl⟩ rfl).1,
   (construct_initializes [(3, Relation.implicit), (4, Relation.dynamic)] 1
      (engInit 0)
      ⟨0, 0, 0, ObjectState.Unrealized, false,
        [⟨Relation.implicit, InterfaceState.Exposed, true⟩,
         ⟨Relation.dynamic, InterfaceState.Uninitialized, false⟩]⟩
      ⟨0, 1, 1, 1, [0]⟩ ⟨0, [], rfl⟩ rfl).2.1,
   (construct_initializes [(3, Relation.implicit), (4, Relation.dynamic)] 1
      (engInit 0)
      ⟨0, 0, 0, ObjectState.Unrealized, false,
        [⟨Relation.implicit, InterfaceState.Exposed, true⟩,
         ⟨Relation.dynamic, InterfaceState.Uninitialized, false⟩]⟩
      ⟨0, 1, 1, 1, [0]⟩ ⟨0, [], rfl⟩ rfl).2.2.2 0 (3, Relation.implicit)
      rfl,
   (construct_initializes [(3, Relation.implicit), (4, Relation.dynamic)] 1
      (engInit 0)
      ⟨0, 0, 0, ObjectState.Unrealized, false,
        [⟨Relation.implicit, InterfaceState.Exposed, true⟩,
         ⟨Relation.dynamic, InterfaceState.Uninitialized, false⟩]⟩
      ⟨0, 1, 1, 1, [0]⟩ ⟨0, [], rfl⟩ rfl).2.2.2 1 (4, Relation.dynamic)
      rfl⟩

/-- Witness for C7: a construct on a fresh engine followed by the destroy
of the returned object restores the empty mask and zero count. -/
theorem construct_destroy_roundtrip_witness :
    (IObject_Destroy_engine
      ⟨5, 0, 0, ObjectState.Unrealized, false, []⟩
      ⟨5, 1, 1, 1, [0]⟩).mInstanceMask = (engInit 5).mInstanceMask ∧
    (IObject_Destroy_engine
      ⟨5, 0, 0, ObjectState.Unrealized, false, []⟩
      ⟨5, 1, 1, 1, [0]⟩).mInstanceCount = (engInit 5).mInstanceCount :=
  construct_destroy_roundtrip [] 0 (engInit 5)
    ⟨5, 0, 0, ObjectState.Unrealized, false, []⟩
    ⟨5, 1, 1, 1, [0]⟩ (by decide) rfl

/-- Witness for C9: three encoder ids, a request of one: one id is
copied, the stored count is untouched. -/
theorem GetAudioEncoders_copies_min_witness :
    (IAudioEncoderCapabilities_GetAudioEncoders 2 [5, 6, 7]
      (some 1) false).res = SL_RESULT_SUCCESS ∧
    (IAudioEncoderCapabilities_GetAudioEncoders 2 [5, 6, 7]
      (some 1) false).idsWritten = [5, 6, 7].take (min 1 2) ∧
    (IAudioEncoderCapabilities_GetAudioEncoders 2 [5, 6, 7]
      (some 1) false).idsWritten.length = min 1 2 ∧
    (2 ≤ 1 → (IAudioEncoderCapabilities_GetAudioEncoders 2 [5, 6, 7]
      (some 1) false).pNumOut = some 2) ∧
    (1 < 2 → (IAudioEncoderCapabilities_GetAudioEncoders 2 [5, 6, 7]
      (some 1) false).pNumOut = some 1) :=
  GetAudioEncoders_copies_min 2 1 [5, 6, 7] (by decide)

end SystemMedia
